import Mathlib

/-!
Shallow embedding of the chat subsystem of the Sheda backend
(`app/routers/chat.py`, `app/schemas/chat.py`).

The relational message store is modelled as a list of rows plus the next
primary key; SQL timestamps are naturals, assigned at insert time.  Each
FastAPI endpoint becomes a pure function from the store (and, where the
code touches it, the connection registry) to its result and the updated
store.  The `ConnectionManager` registry is the list of live sessions in
registration order; the network effect of a delivery scan is modelled as
the list of sessions that were sent the payload.
-/

namespace Sheda

/-- A row of the chat-message table as used by `app/routers/chat.py`:
`id` primary key (assigned on insert, monotonic), `sender_id`,
`receiver_id`, `message`, optional `property_id`, `timestamp`
(server-assigned at insert, modelled as `Nat`), `is_read` defaulting to
`false`. -/
structure ChatMessage where
  id : Nat
  sender_id : Nat
  receiver_id : Nat
  message : String
  property_id : Option Nat
  timestamp : Nat
  is_read : Bool
deriving Repr, DecidableEq

/-- One entry of `ConnectionManager.active_connections`: the dict holding a
`user_id` and a websocket; the socket handle is modelled as a numeric
identity `sock`. -/
structure Session where
  user_id : Nat
  sock : Nat
deriving Repr, DecidableEq

/-- `ConnectionManager.active_connections`: live sessions in registration
order (`connect` appends at the end). -/
abbrev Registry := List Session

/-- The message store: committed rows plus the next primary key. -/
structure DB where
  msgs : List ChatMessage
  nextId : Nat
deriving Repr, DecidableEq

def DB.empty : DB := ⟨[], 0⟩

/-- `db.add(...); await db.commit()`: appends a fresh row with the next id,
`is_read` defaulting to `false`, timestamp assigned at persist time. -/
def DB.insert (db : DB) (s r : Nat) (text : String) (pid : Option Nat)
    (ts : Nat) : ChatMessage × DB :=
  let m : ChatMessage := ⟨db.nextId, s, r, text, pid, ts, false⟩
  (m, ⟨db.msgs ++ [m], db.nextId + 1⟩)

/-- Ordering relation of `order_by(ChatMessage.timestamp.desc())`:
`a` may precede `b` when `b.timestamp ≤ a.timestamp` (newest first). -/
def tsGE (a b : ChatMessage) : Prop := b.timestamp ≤ a.timestamp

instance : DecidableRel tsGE := fun a b =>
  inferInstanceAs (Decidable (b.timestamp ≤ a.timestamp))

instance : IsTotal ChatMessage tsGE := ⟨fun a b => Nat.le_total b.timestamp a.timestamp⟩

instance : IsTrans ChatMessage tsGE :=
  ⟨fun _ _ _ h₁ h₂ => Nat.le_trans h₂ h₁⟩

/-- The `ORDER BY timestamp DESC` step, as a deterministic sort. -/
def sortDesc (l : List ChatMessage) : List ChatMessage :=
  List.insertionSort tsGE l

/-- `ConnectionManager.send_personal_message`'s scan: walks
`active_connections` in registration order and sends to the first session
whose `user_id` matches, then breaks.  The result is the list of sessions
that were sent the payload. -/
def deliverSends : Registry → Nat → Registry
  | [], _ => []
  | c :: rest, uid => if c.user_id == uid then [c] else deliverSends rest uid

/-- A Python return value: `None` or a boolean. -/
inductive PyRet where
  | none
  | bool (b : Bool)
deriving Repr, DecidableEq

/-- The value `ConnectionManager.send_personal_message` returns to its
caller: the Python function body has no `return` statement, so it returns
`None` on every input. -/
def send_personal_message_ret (_conns : Registry) (_uid : Nat) : PyRet :=
  PyRet.none

/-- A parsed inbound frame of the live session: `data.get` yields `none`
for a missing key. -/
structure Frame where
  receiver_id : Option Nat
  message : Option String
  property_id : Option Nat
deriving Repr, DecidableEq

/-- `SendMessageRequest` from `app/schemas/chat.py`. -/
structure SendMessageRequest where
  receiver_id : Nat
  message : String
  property_id : Option Nat
deriving Repr, DecidableEq

/-- Outcome of one iteration of the websocket receive loop.  Both outcomes
leave the connection open: the loop continues with the next frame (only a
`WebSocketDisconnect` exits the loop). -/
inductive WsStep where
  | notice (text : String)
  | stored (m : ChatMessage)
deriving Repr, DecidableEq

/-- Python truthiness of `data.get` on a numeric field: `None` and `0` are
falsy. -/
def truthyNat : Option Nat → Bool
  | none => false
  | some n => n != 0

/-- Python truthiness of `data.get` on a string field: `None` and `""` are
falsy. -/
def truthyStr : Option String → Bool
  | none => false
  | some s => s != ""

/-- One iteration of the `websocket_chat` receive loop, after awaiting a
frame.  `frame = none` is a JSON parse failure.  The validation is
`if not all([sender_id, receiver_id, message])`.  The persisted row is
built from `ChatMessageSchema(sender_id=..., receiver_id=..., message=...)`
via `model_dump(exclude_unset=True)`: `property_id` is never read from the
frame, so the stored row's `property_id` is the column default `none`.
The commit happens before `manager.send_personal_message` is called;
the third component is the list of sessions the delivery scan sent to. -/
def websocket_iteration (sender_id : Nat) (frame : Option Frame) (db : DB)
    (conns : Registry) (ts : Nat) : WsStep × DB × Registry :=
  match frame with
  | none => (WsStep.notice "Invalid JSON received", db, [])
  | some f =>
    if truthyNat (some sender_id) && truthyNat f.receiver_id && truthyStr f.message then
      let md := db.insert sender_id (f.receiver_id.getD 0) (f.message.getD "") none ts
      (WsStep.stored md.1, md.2, deliverSends conns (f.receiver_id.getD 0))
    else
      (WsStep.notice "Missing fields in message", db, [])

/-- The receive loop over a sequence of (frame, arrival time) pairs,
threading the store; the loop runs on while notices are sent. -/
def websocket_loop (sender_id : Nat) :
    List (Option Frame × Nat) → DB → Registry → DB
  | [], db, _ => db
  | (f, ts) :: rest, db, conns =>
      websocket_loop sender_id rest
        (websocket_iteration sender_id f db conns ts).2.1 conns

/-- The `/chat-history` endpoint: messages with `sender_id == current_user.id`,
ordered by timestamp descending, with `offset`/`limit` pagination. -/
def chat_history (uid off lim : Nat) (db : DB) : List ChatMessage :=
  ((sortDesc (db.msgs.filter (fun m => m.sender_id == uid))).drop off).take lim

/-- The `/history/{user_id}` endpoint: messages whose (sender, receiver)
pair matches the two users in either direction, ordered by timestamp
descending, with `offset`/`limit` pagination. -/
def get_history_with_user (uid other off lim : Nat) (db : DB) :
    List ChatMessage :=
  ((sortDesc (db.msgs.filter (fun m =>
      (m.sender_id == uid && m.receiver_id == other) ||
      (m.sender_id == other && m.receiver_id == uid)))).drop off).take lim

/-- The `/send-message` endpoint: persist (commit) first, then attempt the
best-effort websocket delivery; returns the created row, the new store and
the sessions the delivery scan sent to. -/
def send_message (sender : Nat) (req : SendMessageRequest) (db : DB)
    (conns : Registry) (ts : Nat) : ChatMessage × DB × Registry :=
  let md := db.insert sender req.receiver_id req.message req.property_id ts
  (md.1, md.2, deliverSends conns req.receiver_id)

/-- The grouping key of the conversations subquery:
`case((sender_id == user_id, receiver_id), else_=sender_id)`. -/
def counterpart (uid : Nat) (m : ChatMessage) : Nat :=
  if m.sender_id == uid then m.receiver_id else m.sender_id

/-- The subquery's filter: `or_(sender_id == user_id, receiver_id == user_id)`. -/
def involves (uid : Nat) (m : ChatMessage) : Bool :=
  m.sender_id == uid || m.receiver_id == uid

/-- `func.max(ChatMessage.id)` over a group, joined back on `id == max_id`:
picks the element of greatest id (the earlier one on a tie). -/
def pickMaxId : List ChatMessage → Option ChatMessage
  | [] => none
  | m :: rest =>
    match pickMaxId rest with
    | none => some m
    | some m' => some (if m'.id > m.id then m' else m)

/-- The per-conversation unread query: count of rows with
`sender_id == other, receiver_id == uid, is_read == False`. -/
def unreadFrom (uid other : Nat) (db : DB) : Nat :=
  (db.msgs.filter (fun x =>
    x.sender_id == other && x.receiver_id == uid && x.is_read == false)).length

/-- `ConversationSchema` from `app/schemas/chat.py`. -/
structure ConversationSchema where
  other_user_id : Nat
  other_user_name : String
  last_message : String
  timestamp : Nat
  unread_count : Nat
deriving Repr, DecidableEq

/-- The rows of the conversations subquery's FROM/WHERE part: messages
involving `uid` as either party. -/
def involvedMsgs (uid : Nat) (db : DB) : List ChatMessage :=
  db.msgs.filter (fun m => involves uid m)

/-- The distinct grouping keys of the subquery (`group_by(case(...))`). -/
def convParts (uid : Nat) (db : DB) : List Nat :=
  ((involvedMsgs uid db).map (fun m => counterpart uid m)).dedup

/-- One group of the subquery: the involved messages whose counterpart
is `c`. -/
def convGroup (uid c : Nat) (db : DB) : List ChatMessage :=
  (involvedMsgs uid db).filter (fun m => counterpart uid m == c)

/-- The join of `ChatMessage` against the subquery on `id == max_id`: one
message of maximal id per group. -/
def convSelected (uid : Nat) (db : DB) : List ChatMessage :=
  (convParts uid db).filterMap (fun c => pickMaxId (convGroup uid c db))

/-- The Python loop's recomputation of the counterpart:
`sender_id if sender_id != user_id else receiver_id`. -/
def otherOf (uid : Nat) (m : ChatMessage) : Nat :=
  if m.sender_id != uid then m.sender_id else m.receiver_id

/-- One `ConversationSchema` row built from a selected message, with the
per-row unread count query. -/
def mkConversation (uid : Nat) (users : Nat → String) (db : DB)
    (m : ChatMessage) : ConversationSchema :=
  { other_user_id := otherOf uid m
    other_user_name := users (otherOf uid m)
    last_message := m.message
    timestamp := m.timestamp
    unread_count := unreadFrom uid (otherOf uid m) db }

/-- The `/conversations` endpoint.  `users` is the `BaseUser` table as a
total username lookup (referential integrity: every referenced user id
exists).  Grouping, max-id selection, timestamp-descending order and the
per-row unread count follow `get_conversations` in `app/routers/chat.py`. -/
def get_conversations (uid : Nat) (users : Nat → String) (db : DB) :
    List ConversationSchema :=
  (sortDesc (convSelected uid db)).map (mkConversation uid users db)

/-- The WHERE clause of the mark-read select:
`sender_id == sender, receiver_id == uid, is_read == False`. -/
def readPred (uid sender : Nat) (m : ChatMessage) : Bool :=
  m.sender_id == sender && m.receiver_id == uid && m.is_read == false

/-- The per-row effect of the mark-read loop: a selected row gets
`is_read = True`, every other row is untouched. -/
def markReadUpdate (uid sender : Nat) (m : ChatMessage) : ChatMessage :=
  if readPred uid sender m then { m with is_read := true } else m

/-- The `/mark-read/{sender_id}` endpoint: selects the unread rows from
`sender` to `uid`, flips each to read, commits, and reports how many rows
were selected. -/
def mark_messages_as_read (uid sender : Nat) (db : DB) : Nat × DB :=
  ((db.msgs.filter (readPred uid sender)).length,
   { db with msgs := db.msgs.map (markReadUpdate uid sender) })

/-- The `/unread-count` endpoint: count of rows with
`receiver_id == uid, is_read == False` (`result.scalar() or 0` maps a zero
count to the same number). -/
def get_unread_count (uid : Nat) (db : DB) : Nat :=
  (db.msgs.filter (fun m => m.receiver_id == uid && m.is_read == false)).length

/-- A store-mutating operation of the chat API: a synchronous send or a
mark-read call. -/
inductive Op where
  | send (sender receiver : Nat) (text : String) (pid : Option Nat) (ts : Nat)
  | markRead (requester sender : Nat)
deriving Repr, DecidableEq

def applyOp (db : DB) : Op → DB
  | Op.send s r text pid ts => (DB.insert db s r text pid ts).2
  | Op.markRead u s => (mark_messages_as_read u s db).2

def applyOps (db : DB) : List Op → DB
  | [] => db
  | op :: rest => applyOps (applyOp db op) rest

/-- The spec's wording of the pair filter of `getHistoryWithUser`: the
`{sender_id, receiver_id}` pair equals `{u, c}` in either direction. -/
def between (u c : Nat) (m : ChatMessage) : Prop :=
  (m.sender_id = u ∧ m.receiver_id = c) ∨ (m.sender_id = c ∧ m.receiver_id = u)

instance (u c : Nat) (m : ChatMessage) : Decidable (between u c m) := by
  unfold between; infer_instance

/-! ### Helper lemmas -/

theorem mem_sortDesc {m : ChatMessage} {l : List ChatMessage} :
    m ∈ sortDesc l ↔ m ∈ l :=
  (List.perm_insertionSort tsGE l).mem_iff

theorem sortDesc_perm (l : List ChatMessage) : List.Perm (sortDesc l) l :=
  List.perm_insertionSort tsGE l

theorem sortDesc_sorted (l : List ChatMessage) :
    (sortDesc l).Pairwise (fun a b => b.timestamp ≤ a.timestamp) :=
  List.sorted_insertionSort tsGE l

theorem window_sublist {α : Type} (l : List α) (off lim : Nat) :
    List.Sublist ((l.drop off).take lim) l :=
  (List.take_sublist _ _).trans (List.drop_sublist _ _)

theorem mem_of_window {α : Type} {l : List α} {m : α} {off lim : Nat}
    (h : m ∈ (l.drop off).take lim) : m ∈ l :=
  (window_sublist l off lim).mem h

theorem mem_window_of_mem {α : Type} {l : List α} {m : α} (h : m ∈ l) :
    ∃ off, m ∈ (l.drop off).take 1 := by
  induction l with
  | nil => cases h
  | cons a t ih =>
    rcases List.mem_cons.mp h with rfl | ht
    · exact ⟨0, by simp⟩
    · obtain ⟨off, hoff⟩ := ih ht
      exact ⟨off + 1, by simpa using hoff⟩

theorem deliverSends_eq_nil_iff (conns : Registry) (uid : Nat) :
    deliverSends conns uid = [] ↔ ∀ c ∈ conns, c.user_id ≠ uid := by
  induction conns with
  | nil => simp [deliverSends]
  | cons c rest ih =>
    by_cases h : c.user_id = uid
    · simp [deliverSends, h]
    · simp only [deliverSends, beq_iff_eq, if_neg h, ih, List.mem_cons]
      constructor
      · rintro hall x (rfl | hx)
        · exact h
        · exact hall x hx
      · intro hall x hx
        exact hall x (Or.inr hx)

theorem deliverSends_first_match {conns : Registry} {uid : Nat} :
    ∀ c ∈ deliverSends conns uid,
      conns.find? (fun s => s.user_id == uid) = some c := by
  induction conns with
  | nil => intro c hc; cases hc
  | cons x rest ih =>
    intro c hc
    by_cases h : x.user_id = uid
    · simp only [deliverSends, beq_iff_eq, if_pos h, List.mem_singleton] at hc
      subst hc
      rw [List.find?_cons_of_pos _ (by simp [h])]
    · simp only [deliverSends, beq_iff_eq, if_neg h] at hc
      rw [List.find?_cons_of_neg _ (by simp [h])]
      exact ih c hc

theorem deliverSends_length_le (conns : Registry) (uid : Nat) :
    (deliverSends conns uid).length ≤ 1 := by
  induction conns with
  | nil => simp [deliverSends]
  | cons c rest ih =>
    by_cases h : c.user_id = uid
    · simp [deliverSends, h]
    · simpa [deliverSends, h] using ih

theorem unreadFrom_eq_countP (uid other : Nat) (db : DB) :
    unreadFrom uid other db =
      db.msgs.countP (fun x =>
        decide (x.sender_id = other ∧ x.receiver_id = uid ∧ x.is_read = false)) := by
  unfold unreadFrom
  rw [List.countP_eq_length_filter]
  congr 1
  apply List.filter_congr
  intro x _
  by_cases h1 : x.sender_id = other <;> by_cases h2 : x.receiver_id = uid <;>
    cases h3 : x.is_read <;> simp [h1, h2, h3]

theorem get_unread_count_eq_countP (uid : Nat) (db : DB) :
    get_unread_count uid db =
      db.msgs.countP (fun m => decide (m.receiver_id = uid ∧ m.is_read = false)) := by
  unfold get_unread_count
  rw [List.countP_eq_length_filter]
  congr 1
  apply List.filter_congr
  intro x _
  by_cases h2 : x.receiver_id = uid <;> cases h3 : x.is_read <;> simp [h2, h3]

/-! ### Claim C3 (corrected) -/

/-- C3 counterexample: on the registry holding exactly one session for user
2, the delivery scan does send the payload (the send list is nonempty), yet
`send_personal_message` returns `None`, not a boolean — the claim that the
call returns a boolean indicating whether a send occurred is false. -/
theorem c3_no_bool_returned :
    deliverSends [⟨2, 7⟩] 2 = [⟨2, 7⟩] ∧
    send_personal_message_ret [⟨2, 7⟩] 2 ≠ PyRet.bool true ∧
    send_personal_message_ret [⟨2, 7⟩] 2 ≠ PyRet.bool false := by
  refine ⟨rfl, ?_, ?_⟩ <;> intro h <;> cases h

/-- C3 amended: `send_personal_message` sends the payload to at most one
live session — the first session in registration order whose `user_id`
matches, so no later matching session receives it — but the call returns
`None` rather than a boolean indicating whether a send occurred. -/
theorem c3_first_match_delivery (conns : Registry) (uid : Nat) :
    (deliverSends conns uid).length ≤ 1 ∧
    (∀ c ∈ deliverSends conns uid,
        conns.find? (fun s => s.user_id == uid) = some c) ∧
    (deliverSends conns uid = [] ↔ ∀ c ∈ conns, c.user_id ≠ uid) ∧
    send_personal_message_ret conns uid = PyRet.none :=
  ⟨deliverSends_length_le conns uid, deliverSends_first_match,
   deliverSends_eq_nil_iff conns uid, rfl⟩

/-- C3 witness: on a registry with a non-matching session before two
matching ones, exactly the first matching session is sent to. -/
theorem c3_first_match_delivery_witness :
    deliverSends [⟨1, 0⟩, ⟨2, 7⟩, ⟨2, 8⟩] 2 = [⟨2, 7⟩] ∧
    List.find? (fun s => s.user_id == 2)
      ([⟨1, 0⟩, ⟨2, 7⟩, ⟨2, 8⟩] : Registry) = some ⟨2, 7⟩ := by
  refine ⟨by decide, ?_⟩
  exact (c3_first_match_delivery [⟨1, 0⟩, ⟨2, 7⟩, ⟨2, 8⟩] 2).2.1 ⟨2, 7⟩ (by decide)

/-! ### Claim C8 (confirmed) -/

/-- C8: for all users `a` and `b` and identical offset/limit, the history
query called by `a` about `b` and the one called by `b` about `a` return
the same messages — each of which has its sender/receiver pair equal to
the unordered pair of the two users — and the result is ordered
newest-first. -/
theorem c8_history_symmetric (a b off lim : Nat) (db : DB) :
    get_history_with_user a b off lim db = get_history_with_user b a off lim db ∧
    (∀ m ∈ get_history_with_user a b off lim db, between a b m) ∧
    (get_history_with_user a b off lim db).Pairwise
      (fun x y => y.timestamp ≤ x.timestamp) := by
  refine ⟨?_, ?_, ?_⟩
  · have hf : db.msgs.filter (fun m =>
        (m.sender_id == a && m.receiver_id == b) ||
        (m.sender_id == b && m.receiver_id == a)) =
        db.msgs.filter (fun m =>
        (m.sender_id == b && m.receiver_id == a) ||
        (m.sender_id == a && m.receiver_id == b)) := by
      apply List.filter_congr
      intro m _
      exact Bool.or_comm _ _
    unfold get_history_with_user
    rw [hf]
  · intro m hm
    have hmem := mem_sortDesc.mp (mem_of_window hm)
    have := List.of_mem_filter hmem
    simp only [Bool.or_eq_true, Bool.and_eq_true, beq_iff_eq] at this
    unfold between
    tauto
  · exact (sortDesc_sorted _).sublist (window_sublist _ off lim)

/-- C8 witness: a concrete two-message store, queried both ways. -/
theorem c8_history_symmetric_witness :
    get_history_with_user 1 2 0 5 ⟨[⟨0, 1, 2, "a", none, 3, false⟩,
        ⟨1, 2, 1, "b", none, 4, false⟩], 2⟩
      = get_history_with_user 2 1 0 5 ⟨[⟨0, 1, 2, "a", none, 3, false⟩,
        ⟨1, 2, 1, "b", none, 4, false⟩], 2⟩ ∧
    between 1 2 ⟨1, 2, 1, "b", none, 4, false⟩ :=
  ⟨(c8_history_symmetric 1 2 0 5 _).1,
   (c8_history_symmetric 1 2 0 5 ⟨[⟨0, 1, 2, "a", none, 3, false⟩,
        ⟨1, 2, 1, "b", none, 4, false⟩], 2⟩).2.1
     ⟨1, 2, 1, "b", none, 4, false⟩ (by decide)⟩

/-! ### Claim C9 (confirmed) -/

/-- C9: the sent-history endpoint returns only messages sent by the
requester — a stored message whose sender is not the requester is never
in the result — ordered newest-first, and the page is at most `lim`
long, taken after dropping `off` entries of the sorted sent list. -/
theorem c9_chat_history_sent_only (u off lim : Nat) (db : DB) :
    (∀ m ∈ chat_history u off lim db, m.sender_id = u) ∧
    (∀ m ∈ db.msgs, m.sender_id ≠ u → m ∉ chat_history u off lim db) ∧
    (chat_history u off lim db).Pairwise (fun x y => y.timestamp ≤ x.timestamp) ∧
    (chat_history u off lim db).length ≤ lim := by
  refine ⟨?_, ?_, ?_, ?_⟩
  · intro m hm
    have hmem := mem_sortDesc.mp (mem_of_window hm)
    have := List.of_mem_filter hmem
    simpa using this
  · intro m _ hne hm
    exact hne (by
      have hmem := mem_sortDesc.mp (mem_of_window hm)
      have := List.of_mem_filter hmem
      simpa using this)
  · exact (sortDesc_sorted _).sublist (window_sublist _ off lim)
  · exact (List.length_take_le _ _).trans (Nat.le_refl _)

/-! ### Claim C4 (confirmed) -/

theorem readPred_markReadUpdate (u s : Nat) (x : ChatMessage) :
    readPred u s (markReadUpdate u s x) = false := by
  by_cases hp : readPred u s x = true
  · unfold markReadUpdate
    rw [if_pos hp]
    simp [readPred]
  · unfold markReadUpdate
    rw [if_neg hp]
    simpa using hp

theorem markReadUpdate_idem (u s : Nat) (x : ChatMessage) :
    markReadUpdate u s (markReadUpdate u s x) = markReadUpdate u s x := by
  have h := readPred_markReadUpdate u s x
  simp only [markReadUpdate] at h ⊢
  rw [if_neg (by simp [h])]

theorem readPred_eq_decide (u s : Nat) (m : ChatMessage) :
    readPred u s m =
      decide (m.sender_id = s ∧ m.receiver_id = u ∧ m.is_read = false) := by
  by_cases h1 : m.sender_id = s <;> by_cases h2 : m.receiver_id = u <;>
    cases h3 : m.is_read <;> simp [readPred, h1, h2, h3]

/-- C4: mark-read flips `is_read` to true for exactly the stored rows from
`s` to `u` that were unread (every other row is unchanged), reports the
number of such rows, and is idempotent: an immediately repeated call
reports 0 and leaves the store — in particular every flipped row's
`is_read` — untouched; afterwards every stored row from `s` to `u` is
read. -/
theorem c4_mark_read_exact (u s : Nat) (db : DB) :
    List.Forall₂ (fun m m' =>
        (readPred u s m = true → m' = { m with is_read := true }) ∧
        (readPred u s m = false → m' = m))
      db.msgs ((mark_messages_as_read u s db).2).msgs ∧
    (mark_messages_as_read u s db).1 =
      db.msgs.countP (fun m =>
        decide (m.sender_id = s ∧ m.receiver_id = u ∧ m.is_read = false)) ∧
    mark_messages_as_read u s (mark_messages_as_read u s db).2
      = (0, (mark_messages_as_read u s db).2) ∧
    (∀ m' ∈ ((mark_messages_as_read u s db).2).msgs,
        m'.sender_id = s → m'.receiver_id = u → m'.is_read = true) := by
  refine ⟨?_, ?_, ?_, ?_⟩
  · refine List.forall₂_map_right_iff.mpr (List.forall₂_same.mpr ?_)
    intro a _
    constructor
    · intro hp
      simp [markReadUpdate, hp]
    · intro hp
      simp [markReadUpdate, hp]
  · simp only [mark_messages_as_read]
    rw [List.countP_eq_length_filter]
    congr 1
    exact List.filter_congr (fun m _ => readPred_eq_decide u s m)
  · have hfil : ((mark_messages_as_read u s db).2).msgs.filter (readPred u s)
        = [] := by
      simp only [mark_messages_as_read, List.filter_map]
      have : (readPred u s ∘ markReadUpdate u s) = fun _ => false := by
        funext x
        exact readPred_markReadUpdate u s x
      rw [this]
      simp
    have hmap : ((mark_messages_as_read u s db).2).msgs.map (markReadUpdate u s)
        = ((mark_messages_as_read u s db).2).msgs := by
      simp only [mark_messages_as_read, List.map_map]
      exact List.map_congr_left (fun x _ => markReadUpdate_idem u s x)
    simp only [mark_messages_as_read] at hfil hmap ⊢
    rw [hfil, hmap]
    rfl
  · intro m' hm' hs hu
    simp only [mark_messages_as_read, List.mem_map] at hm'
    obtain ⟨x, _, rfl⟩ := hm'
    by_cases hp : readPred u s x = true
    · simp only [markReadUpdate, if_pos hp]
    · simp only [markReadUpdate, if_neg hp] at hs hu ⊢
      by_cases hr : x.is_read = true
      · exact hr
      · exfalso
        apply hp
        simp only [readPred, Bool.and_eq_true, beq_iff_eq]
        rw [Bool.not_eq_true] at hr
        exact ⟨⟨hs, hu⟩, hr⟩

/-- C4 witness: a two-row store where only one row is from 2 to 1 and
unread; marking reports 1 and repeating reports 0 with the store fixed. -/
theorem c4_mark_read_exact_witness :
    (mark_messages_as_read 1 2 ⟨[⟨0, 2, 1, "a", none, 3, false⟩,
        ⟨1, 1, 2, "b", none, 4, false⟩], 2⟩).1 = 1 ∧
    mark_messages_as_read 1 2
        (mark_messages_as_read 1 2 ⟨[⟨0, 2, 1, "a", none, 3, false⟩,
          ⟨1, 1, 2, "b", none, 4, false⟩], 2⟩).2
      = (0, (mark_messages_as_read 1 2 ⟨[⟨0, 2, 1, "a", none, 3, false⟩,
          ⟨1, 1, 2, "b", none, 4, false⟩], 2⟩).2) := by
  constructor
  · have h := (c4_mark_read_exact 1 2 ⟨[⟨0, 2, 1, "a", none, 3, false⟩,
      ⟨1, 1, 2, "b", none, 4, false⟩], 2⟩).2.1
    rw [h]
    decide
  · exact (c4_mark_read_exact 1 2 ⟨[⟨0, 2, 1, "a", none, 3, false⟩,
      ⟨1, 1, 2, "b", none, 4, false⟩], 2⟩).2.2.1

/-! ### Claim C5 (confirmed) -/

/-- C5: after any sequence of send and mark-read operations, the unread
count of `u` equals the number of stored rows with `receiver_id = u` and
`is_read = false`; a freshly sent message raises the receiver's count by
one and leaves every other user's count — in particular the sender's —
unchanged. -/
theorem c5_unread_count_invariant (ops : List Op) (db0 : DB) (u : Nat) :
    get_unread_count u (applyOps db0 ops) =
      (applyOps db0 ops).msgs.countP (fun m =>
        decide (m.receiver_id = u ∧ m.is_read = false)) ∧
    (∀ (db : DB) (s v : Nat) (text : String) (pid : Option Nat) (ts : Nat),
      get_unread_count v (applyOp db (Op.send s v text pid ts))
        = get_unread_count v db + 1) ∧
    (∀ (db : DB) (s v : Nat) (text : String) (pid : Option Nat) (ts : Nat),
      v ≠ u →
      get_unread_count u (applyOp db (Op.send s v text pid ts))
        = get_unread_count u db) := by
  refine ⟨get_unread_count_eq_countP u (applyOps db0 ops), ?_, ?_⟩
  · intro db s v text pid ts
    simp [applyOp, DB.insert, get_unread_count, List.filter_append]
  · intro db s v text pid ts hne
    simp [applyOp, DB.insert, get_unread_count, List.filter_append, hne]

/-- C5 witness: a concrete interleaving — 2 sends to user 1, one of them
marked read — leaves user 1 with one unread row, and a send from user 1
leaves user 1's own count unchanged. -/
theorem c5_unread_count_invariant_witness :
    get_unread_count 1
        (applyOps DB.empty [Op.send 2 1 "a" none 0, Op.send 3 1 "b" none 1,
          Op.markRead 1 2])
      = (applyOps DB.empty [Op.send 2 1 "a" none 0, Op.send 3 1 "b" none 1,
          Op.markRead 1 2]).msgs.countP (fun m =>
            decide (m.receiver_id = 1 ∧ m.is_read = false)) ∧
    get_unread_count 1 (applyOp DB.empty (Op.send 1 2 "c" none 0))
      = get_unread_count 1 DB.empty := by
  constructor
  · exact (c5_unread_count_invariant [Op.send 2 1 "a" none 0,
      Op.send 3 1 "b" none 1, Op.markRead 1 2] DB.empty 1).1
  · exact (c5_unread_count_invariant [] DB.empty 1).2.2 DB.empty 1 2 "c" none 0
      (by decide)

/-- C9 witness: in a store where user 1 both sent and received a message,
the sent-history of user 1 holds only the sent one. -/
theorem c9_chat_history_sent_only_witness :
    (⟨1, 2, 1, "in", none, 4, false⟩ : ChatMessage) ∉
      chat_history 1 0 5 ⟨[⟨0, 1, 2, "out", none, 3, false⟩,
        ⟨1, 2, 1, "in", none, 4, false⟩], 2⟩ :=
  (c9_chat_history_sent_only 1 0 5 _).2.1 ⟨1, 2, 1, "in", none, 4, false⟩
    (by decide) (by decide)

/-! ### Claim C2 (confirmed) -/

theorem retrievable_of_mem {m : ChatMessage} {u o : Nat} {db : DB}
    (hm : m ∈ db.msgs) (hs : m.sender_id = u) (hr : m.receiver_id = o) :
    ∃ off, m ∈ get_history_with_user u o off 1 db := by
  have hp : ((m.sender_id == u && m.receiver_id == o) ||
      (m.sender_id == o && m.receiver_id == u)) = true := by
    simp [hs, hr]
  exact mem_window_of_mem (mem_sortDesc.mpr (List.mem_filter.mpr ⟨hm, hp⟩))

/-- C2: both the synchronous send endpoint and the live-session receive
loop commit the new row to the store before — and independently of — the
delivery scan: the resulting store does not depend on the registry, the
new row is appended to the store, and when the receiver has no live
session the scan sends to nobody while the persisted row is still
retrievable through the history query. -/
theorem c2_persist_independent_of_delivery (sender : Nat)
    (req : SendMessageRequest) (f : Frame) (db : DB) (conns : Registry)
    (ts : Nat) :
    ((send_message sender req db conns ts).2.1
        = (send_message sender req db [] ts).2.1) ∧
    ((send_message sender req db conns ts).2.1).msgs
        = db.msgs ++ [(send_message sender req db conns ts).1] ∧
    ((∀ c ∈ conns, c.user_id ≠ req.receiver_id) →
      (send_message sender req db conns ts).2.2 = [] ∧
      ∃ off, (send_message sender req db conns ts).1 ∈
        get_history_with_user sender req.receiver_id off 1
          (send_message sender req db conns ts).2.1) ∧
    ((websocket_iteration sender (some f) db conns ts).2.1
        = (websocket_iteration sender (some f) db [] ts).2.1) ∧
    (∀ m : ChatMessage,
      (websocket_iteration sender (some f) db conns ts).1 = WsStep.stored m →
      ((websocket_iteration sender (some f) db conns ts).2.1).msgs
          = db.msgs ++ [m] ∧
      ((∀ c ∈ conns, c.user_id ≠ f.receiver_id.getD 0) →
        (websocket_iteration sender (some f) db conns ts).2.2 = [] ∧
        ∃ off, m ∈ get_history_with_user sender (f.receiver_id.getD 0) off 1
          (websocket_iteration sender (some f) db conns ts).2.1)) := by
  refine ⟨rfl, rfl, ?_, ?_, ?_⟩
  · intro hmiss
    refine ⟨(deliverSends_eq_nil_iff conns req.receiver_id).mpr hmiss, ?_⟩
    exact retrievable_of_mem (List.mem_append_right _ (List.mem_singleton.mpr rfl))
      rfl rfl
  · by_cases hc : (truthyNat (some sender) && truthyNat f.receiver_id &&
        truthyStr f.message) = true
    · simp [websocket_iteration, hc]
    · simp [websocket_iteration, hc]
  · intro m hm
    by_cases hc : (truthyNat (some sender) && truthyNat f.receiver_id &&
        truthyStr f.message) = true
    · simp only [websocket_iteration, if_pos hc, WsStep.stored.injEq] at hm
      subst hm
      simp only [websocket_iteration, if_pos hc]
      refine ⟨rfl, ?_⟩
      intro hmiss
      exact ⟨(deliverSends_eq_nil_iff conns (f.receiver_id.getD 0)).mpr hmiss,
        retrievable_of_mem
          (List.mem_append_right _ (List.mem_singleton.mpr rfl)) rfl rfl⟩
    · simp [websocket_iteration, hc] at hm

/-- C2 witness: user 1 sends to user 2 through the synchronous endpoint
while the registry holds no session for user 2; nothing is delivered, but
the row is in the store and the history query finds it. -/
theorem c2_persist_independent_of_delivery_witness :
    (send_message 1 ⟨2, "hello", none⟩ DB.empty [⟨3, 9⟩] 0).2.2 = [] ∧
    ∃ off, (send_message 1 ⟨2, "hello", none⟩ DB.empty [⟨3, 9⟩] 0).1 ∈
      get_history_with_user 1 2 off 1
        (send_message 1 ⟨2, "hello", none⟩ DB.empty [⟨3, 9⟩] 0).2.1 :=
  (c2_persist_independent_of_delivery 1 ⟨2, "hello", none⟩ ⟨none, none, none⟩
    DB.empty [⟨3, 9⟩] 0).2.2.1 (by decide)

/-! ### Claim C10 (confirmed) -/

/-- C10: a parsed frame whose `receiver_id` is present but `0`, or whose
`message` is present but empty, is rejected exactly like a frame with a
missing key: the sender gets the text notice "Missing fields in message",
the store is unchanged, nothing is delivered, and the receive loop keeps
processing subsequent frames. -/
theorem c10_falsy_rejected (sender : Nat) (f : Frame) (db : DB)
    (conns : Registry) (ts : Nat)
    (h : f.receiver_id = some 0 ∨ f.message = some "") :
    websocket_iteration sender (some f) db conns ts
        = (WsStep.notice "Missing fields in message", db, []) ∧
    websocket_iteration sender (some f) db conns ts
        = websocket_iteration sender
            (some ⟨none, none, f.property_id⟩) db conns ts ∧
    (∀ rest, websocket_loop sender ((some f, ts) :: rest) db conns
        = websocket_loop sender rest db conns) := by
  have hcond : (truthyNat (some sender) && truthyNat f.receiver_id &&
      truthyStr f.message) = false := by
    rcases h with h | h
    · rw [h]; simp [truthyNat]
    · rw [h]; simp [truthyStr]
  have g1 : websocket_iteration sender (some f) db conns ts
      = (WsStep.notice "Missing fields in message", db, []) := by
    simp [websocket_iteration, hcond]
  have g2 : websocket_iteration sender (some ⟨none, none, f.property_id⟩)
      db conns ts = (WsStep.notice "Missing fields in message", db, []) := by
    simp [websocket_iteration, truthyNat]
  refine ⟨g1, g1.trans g2.symm, ?_⟩
  intro rest
  simp [websocket_loop, g1]

/-- C10 witness: a frame with `receiver_id = 0` is rejected with the
missing-fields notice and an untouched store. -/
theorem c10_falsy_rejected_witness :
    websocket_iteration 1 (some ⟨some 0, some "x", none⟩) DB.empty [] 5
      = (WsStep.notice "Missing fields in message", DB.empty, []) :=
  (c10_falsy_rejected 1 ⟨some 0, some "x", none⟩ DB.empty [] 5 (Or.inl rfl)).1

/-! ### Claim C6 (corrected) -/

/-- C6 counterexample: a live-session frame carrying `property_id = 5` is
persisted with `property_id = none` — the receive loop never reads
`property_id` from the frame, so the persisted record does not carry it. -/
theorem c6_property_id_dropped :
    (websocket_iteration 1 (some ⟨some 2, some "hi", some 5⟩)
        DB.empty [] 0).2.1.msgs
      = [⟨0, 1, 2, "hi", none, 0, false⟩] ∧
    ((websocket_iteration 1 (some ⟨some 2, some "hi", some 5⟩)
        DB.empty [] 0).2.1.msgs.map (fun m => m.property_id)) ≠ [some 5] := by
  constructor
  · rfl
  · decide

/-- C6 amended: the receive loop persists
`ChatMessage(sender_id, receiver_id, message_text)` and ignores any
`property_id` in the frame: the persisted record's `property_id` is
always `none`. -/
theorem c6_ws_ignores_property_id (sender r : Nat) (msg : String) (f : Frame)
    (db : DB) (conns : Registry) (ts : Nat)
    (hr : f.receiver_id = some r) (hm : f.message = some msg)
    (hs : sender ≠ 0) (hr0 : r ≠ 0) (hm0 : msg ≠ "") :
    websocket_iteration sender (some f) db conns ts
      = (WsStep.stored ⟨db.nextId, sender, r, msg, none, ts, false⟩,
         ⟨db.msgs ++ [⟨db.nextId, sender, r, msg, none, ts, false⟩],
          db.nextId + 1⟩,
         deliverSends conns r) := by
  have hcond : (truthyNat (some sender) && truthyNat (some r) &&
      truthyStr (some msg)) = true := by
    simp only [truthyNat, truthyStr, Bool.and_eq_true, bne_iff_ne, ne_eq]
    exact ⟨⟨hs, hr0⟩, hm0⟩
  simp only [websocket_iteration, hr, hm]
  rw [if_pos hcond]
  rfl

/-- C6 amended witness: concrete frame with `property_id = 9`. -/
theorem c6_ws_ignores_property_id_witness :
    websocket_iteration 1 (some ⟨some 2, some "yo", some 9⟩) DB.empty [] 4
      = (WsStep.stored ⟨0, 1, 2, "yo", none, 4, false⟩,
         ⟨[⟨0, 1, 2, "yo", none, 4, false⟩], 1⟩, []) := by
  have h := c6_ws_ignores_property_id 1 2 "yo" ⟨some 2, some "yo", some 9⟩
    DB.empty [] 4 rfl rfl (by decide) (by decide) (by decide)
  simpa [DB.empty, deliverSends] using h

/-! ### Claim C7 (corrected) -/

/-- C7 counterexample: the synchronous send endpoint accepts a request
from user 1 to user 1 with empty message text and persists it — the
created ChatMessage is a self-message with empty text. -/
theorem c7_self_message_empty_text :
    (send_message 1 ⟨1, "", none⟩ DB.empty [] 0).1.sender_id
        = (send_message 1 ⟨1, "", none⟩ DB.empty [] 0).1.receiver_id ∧
    (send_message 1 ⟨1, "", none⟩ DB.empty [] 0).1.message = "" ∧
    (send_message 1 ⟨1, "", none⟩ DB.empty [] 0).2.1.msgs
        = [(send_message 1 ⟨1, "", none⟩ DB.empty [] 0).1] := by
  refine ⟨rfl, rfl, rfl⟩

/-- C7 amended: only the live-session receive loop guarantees non-empty
message text (its truthiness check rejects an empty `message`); neither
path enforces `sender_id ≠ receiver_id`, and the synchronous endpoint
accepts empty text. -/
theorem c7_ws_message_nonempty (sender : Nat) (f : Frame) (db : DB)
    (conns : Registry) (ts : Nat) (m : ChatMessage)
    (h : (websocket_iteration sender (some f) db conns ts).1 = WsStep.stored m) :
    m.message ≠ "" := by
  by_cases hc : (truthyNat (some sender) && truthyNat f.receiver_id &&
      truthyStr f.message) = true
  · have hmsg : truthyStr f.message = true := by
      simp only [Bool.and_eq_true] at hc
      exact hc.2
    cases hfm : f.message with
    | none =>
      rw [hfm] at hmsg
      simp [truthyStr] at hmsg
    | some str =>
      rw [hfm] at hmsg
      simp only [truthyStr, bne_iff_ne, ne_eq] at hmsg
      simp only [websocket_iteration, if_pos hc, WsStep.stored.injEq] at h
      subst h
      simpa [DB.insert, hfm] using hmsg
  · simp [websocket_iteration, hc] at h

/-- C7 amended witness: a concrete stored live-session message has
non-empty text. -/
theorem c7_ws_message_nonempty_witness :
    (⟨0, 1, 2, "hey", none, 0, false⟩ : ChatMessage).message ≠ "" :=
  c7_ws_message_nonempty 1 ⟨some 2, some "hey", none⟩ DB.empty [] 0
    ⟨0, 1, 2, "hey", none, 0, false⟩ (by decide)

/-! ### Claim C1 (confirmed) -/

theorem otherOf_eq_counterpart (uid : Nat) (m : ChatMessage) :
    otherOf uid m = counterpart uid m := by
  by_cases h : m.sender_id = uid <;> simp [otherOf, counterpart, h]

theorem pickMaxId_eq_none_iff (l : List ChatMessage) :
    pickMaxId l = none ↔ l = [] := by
  cases l with
  | nil => simp [pickMaxId]
  | cons a rest =>
    simp only [pickMaxId]
    cases pickMaxId rest <;> simp

theorem pickMaxId_mem {l : List ChatMessage} {m : ChatMessage}
    (h : pickMaxId l = some m) : m ∈ l := by
  induction l generalizing m with
  | nil => cases h
  | cons a rest ih =>
    simp only [pickMaxId] at h
    cases hrest : pickMaxId rest with
    | none =>
      rw [hrest] at h
      simp only [Option.some.injEq] at h
      subst h
      exact List.mem_cons_self a rest
    | some m' =>
      rw [hrest] at h
      simp only [Option.some.injEq] at h
      by_cases hgt : m'.id > a.id
      · rw [if_pos hgt] at h
        subst h
        exact List.mem_cons_of_mem a (ih hrest)
      · rw [if_neg hgt] at h
        subst h
        exact List.mem_cons_self a rest

theorem pickMaxId_le {l : List ChatMessage} {m : ChatMessage}
    (h : pickMaxId l = some m) : ∀ x ∈ l, x.id ≤ m.id := by
  induction l generalizing m with
  | nil => intro x hx; cases hx
  | cons a rest ih =>
    simp only [pickMaxId] at h
    cases hrest : pickMaxId rest with
    | none =>
      rw [hrest] at h
      simp only [Option.some.injEq] at h
      subst h
      intro x hx
      rcases List.mem_cons.mp hx with rfl | hx'
      · exact Nat.le_refl _
      · rw [(pickMaxId_eq_none_iff rest).mp hrest] at hx'
        cases hx'
    | some m' =>
      rw [hrest] at h
      simp only [Option.some.injEq] at h
      intro x hx
      rcases List.mem_cons.mp hx with rfl | hx'
      · by_cases hgt : m'.id > x.id
        · rw [if_pos hgt] at h
          subst h
          exact Nat.le_of_lt hgt
        · rw [if_neg hgt] at h
          subst h
          exact Nat.le_refl _
      · have hle := ih hrest x hx'
        by_cases hgt : m'.id > a.id
        · rw [if_pos hgt] at h
          subst h
          exact hle
        · rw [if_neg hgt] at h
          subst h
          exact hle.trans (Nat.le_of_not_lt hgt)

theorem mem_convGroup_iff {uid c : Nat} {db : DB} {x : ChatMessage} :
    x ∈ convGroup uid c db ↔
      x ∈ db.msgs ∧ involves uid x = true ∧ counterpart uid x = c := by
  simp only [convGroup, involvedMsgs, List.mem_filter, beq_iff_eq]
  constructor
  · rintro ⟨⟨hm, hi⟩, hc⟩
    exact ⟨hm, hi, hc⟩
  · rintro ⟨hm, hi, hc⟩
    exact ⟨⟨hm, hi⟩, hc⟩

theorem mem_convParts_iff {uid c : Nat} {db : DB} :
    c ∈ convParts uid db ↔
      ∃ m ∈ db.msgs, involves uid m = true ∧ counterpart uid m = c := by
  simp only [convParts, involvedMsgs, List.mem_dedup, List.mem_map,
    List.mem_filter]
  constructor
  · rintro ⟨m, ⟨hm, hi⟩, hc⟩
    exact ⟨m, hm, hi, hc⟩
  · rintro ⟨m, hm, hi, hc⟩
    exact ⟨m, ⟨hm, hi⟩, hc⟩

theorem convGroup_pick_of_mem_parts {uid c : Nat} {db : DB}
    (hc : c ∈ convParts uid db) :
    ∃ mc, pickMaxId (convGroup uid c db) = some mc ∧
      counterpart uid mc = c := by
  obtain ⟨m, hm, hi, hcp⟩ := mem_convParts_iff.mp hc
  have hmem : m ∈ convGroup uid c db := mem_convGroup_iff.mpr ⟨hm, hi, hcp⟩
  cases hpick : pickMaxId (convGroup uid c db) with
  | none =>
    rw [(pickMaxId_eq_none_iff _).mp hpick] at hmem
    cases hmem
  | some mc =>
    refine ⟨mc, rfl, ?_⟩
    exact (mem_convGroup_iff.mp (pickMaxId_mem hpick)).2.2

theorem filterMap_map_eq {α β : Type} (l : List α) (f : α → Option β)
    (g : β → α) (h : ∀ a ∈ l, ∃ b, f a = some b ∧ g b = a) :
    (l.filterMap f).map g = l := by
  induction l with
  | nil => rfl
  | cons a rest ih =>
    obtain ⟨b, hfa, hgb⟩ := h a (List.mem_cons_self a rest)
    rw [List.filterMap_cons, hfa]
    simp only [List.map_cons, hgb]
    rw [ih (fun x hx => h x (List.mem_cons_of_mem a hx))]

theorem convSelected_map_counterpart (uid : Nat) (db : DB) :
    (convSelected uid db).map (fun m => counterpart uid m)
      = convParts uid db := by
  apply filterMap_map_eq
  intro c hc
  exact convGroup_pick_of_mem_parts hc

theorem between_iff (u c : Nat) (m : ChatMessage) :
    between u c m ↔ (involves u m = true ∧ counterpart u m = c) := by
  unfold between involves counterpart
  by_cases hs : m.sender_id = u
  · simp [hs]
    intro h1 h2
    exact h2.trans h1
  · by_cases hr : m.receiver_id = u
    · simp [hs, hr]
    · simp [hs, hr]

/-- C1: the conversations list has exactly one summary per counterpart
with at least one exchanged message and none for a counterpart with zero
messages; each summary is built from a message of maximal id among the
messages between `uid` and its counterpart; its unread count equals the
number of stored unread messages from that counterpart to `uid`; and the
summaries are ordered by the selected message's timestamp, descending. -/
theorem c1_conversations_aggregate (uid : Nat) (users : Nat → String)
    (db : DB) :
    ((get_conversations uid users db).map (fun s => s.other_user_id)).Nodup ∧
    (∀ c : Nat,
      c ∈ (get_conversations uid users db).map (fun s => s.other_user_id) ↔
        ∃ m ∈ db.msgs, between uid c m) ∧
    (∀ s ∈ get_conversations uid users db,
      ∃ m ∈ db.msgs, between uid s.other_user_id m ∧
        (∀ x ∈ db.msgs, between uid s.other_user_id x → x.id ≤ m.id) ∧
        s.last_message = m.message ∧ s.timestamp = m.timestamp) ∧
    (∀ s ∈ get_conversations uid users db,
      s.unread_count = db.msgs.countP (fun x =>
        decide (x.sender_id = s.other_user_id ∧ x.receiver_id = uid ∧
          x.is_read = false))) ∧
    (get_conversations uid users db).Pairwise
      (fun a b => b.timestamp ≤ a.timestamp) := by
  have hmap : (get_conversations uid users db).map (fun s => s.other_user_id)
      = (sortDesc (convSelected uid db)).map (fun m => counterpart uid m) := by
    simp only [get_conversations, List.map_map]
    exact List.map_congr_left (fun m _ => by
      simp [Function.comp, mkConversation, otherOf_eq_counterpart])
  have hperm : List.Perm
      ((sortDesc (convSelected uid db)).map (fun m => counterpart uid m))
      (convParts uid db) := by
    have h1 := (sortDesc_perm (convSelected uid db)).map
      (fun m => counterpart uid m)
    rw [convSelected_map_counterpart] at h1
    exact h1
  refine ⟨?_, ?_, ?_, ?_, ?_⟩
  · rw [hmap]
    exact hperm.symm.nodup (List.nodup_dedup _)
  · intro c
    rw [hmap, hperm.mem_iff, mem_convParts_iff]
    constructor
    · rintro ⟨m, hm, hi, hc⟩
      exact ⟨m, hm, (between_iff uid c m).mpr ⟨hi, hc⟩⟩
    · rintro ⟨m, hm, hb⟩
      obtain ⟨hi, hc⟩ := (between_iff uid c m).mp hb
      exact ⟨m, hm, hi, hc⟩
  · intro s hs
    simp only [get_conversations, List.mem_map] at hs
    obtain ⟨m0, hm0sort, rfl⟩ := hs
    obtain ⟨c, hcparts, hpick⟩ :=
      List.mem_filterMap.mp (mem_sortDesc.mp hm0sort)
    obtain ⟨hm0db, hm0inv, hm0cp⟩ := mem_convGroup_iff.mp (pickMaxId_mem hpick)
    have hother : (mkConversation uid users db m0).other_user_id = c := by
      simp [mkConversation, otherOf_eq_counterpart, hm0cp]
    refine ⟨m0, hm0db, ?_, ?_, rfl, rfl⟩
    · rw [hother]
      exact (between_iff uid c m0).mpr ⟨hm0inv, hm0cp⟩
    · intro x hx hbx
      rw [hother] at hbx
      obtain ⟨hxi, hxc⟩ := (between_iff uid c x).mp hbx
      exact pickMaxId_le hpick x (mem_convGroup_iff.mpr ⟨hx, hxi, hxc⟩)
  · intro s hs
    simp only [get_conversations, List.mem_map] at hs
    obtain ⟨m0, _, rfl⟩ := hs
    have : (mkConversation uid users db m0).unread_count
        = unreadFrom uid (otherOf uid m0) db := rfl
    rw [this, unreadFrom_eq_countP]
    rfl
  · simp only [get_conversations]
    refine List.pairwise_map.mpr ?_
    exact (sortDesc_sorted _).imp (fun h => h)

/-- C1 witness: with messages 1↔2 and 3→1 in the store (the latest of the
1↔2 pair unread in 1's direction), user 1's conversation list names the
counterparts exactly once each and carries counterpart 2's unread
count. -/
theorem c1_conversations_aggregate_witness :
    ((2 : Nat) ∈ (get_conversations 1 (fun _ => "u")
        ⟨[⟨0, 1, 2, "a", none, 5, false⟩, ⟨1, 2, 1, "b", none, 6, false⟩,
          ⟨2, 3, 1, "c", none, 7, false⟩], 3⟩).map
        (fun s => s.other_user_id)) ∧
    (∀ s ∈ get_conversations 1 (fun _ => "u")
        ⟨[⟨0, 1, 2, "a", none, 5, false⟩, ⟨1, 2, 1, "b", none, 6, false⟩,
          ⟨2, 3, 1, "c", none, 7, false⟩], 3⟩,
      s.unread_count = (⟨[⟨0, 1, 2, "a", none, 5, false⟩,
          ⟨1, 2, 1, "b", none, 6, false⟩,
          ⟨2, 3, 1, "c", none, 7, false⟩], 3⟩ : DB).msgs.countP (fun x =>
        decide (x.sender_id = s.other_user_id ∧ x.receiver_id = 1 ∧
          x.is_read = false))) := by
  constructor
  · exact ((c1_conversations_aggregate 1 (fun _ => "u")
      ⟨[⟨0, 1, 2, "a", none, 5, false⟩, ⟨1, 2, 1, "b", none, 6, false⟩,
        ⟨2, 3, 1, "c", none, 7, false⟩], 3⟩).2.1 2).mpr
      ⟨⟨0, 1, 2, "a", none, 5, false⟩, by simp, Or.inl ⟨rfl, rfl⟩⟩
  · exact (c1_conversations_aggregate 1 (fun _ => "u")
      ⟨[⟨0, 1, 2, "a", none, 5, false⟩, ⟨1, 2, 1, "b", none, 6, false⟩,
        ⟨2, 3, 1, "c", none, 7, false⟩], 3⟩).2.2.2.1

end Sheda
